import Mathlib

/-!
Verification of the `CollisionMap` occupancy grid and its pathfinding graph
adapter from `src/components.rs`.

Machine integers are modelled as `ℕ` with explicit overflow/underflow checks
matching Rust debug-build semantics (the semantics the crate's own test suite
runs under): an arithmetic overflow or underflow, a division or remainder by
zero, and a failed `assert!` all panic, modelled uniformly as `Option.none`.
The `hibitset::BitSet` is modelled as the finite set of bit indices it holds.
-/

namespace Minigene

/-- Number of values of a Rust `u32`. -/
def U32_MOD : ℕ := 2 ^ 32

/-- Number of values of a Rust `usize` (64-bit target). -/
def USIZE_MOD : ℕ := 2 ^ 64

/-- `u32` addition in a debug build: panics (`none`) on overflow. -/
def addU32 (a b : ℕ) : Option ℕ := if a + b < U32_MOD then some (a + b) else none

/-- `u32` multiplication in a debug build: panics on overflow. -/
def mulU32 (a b : ℕ) : Option ℕ := if a * b < U32_MOD then some (a * b) else none

/-- `u32` subtraction in a debug build: panics on underflow. -/
def subU32 (a b : ℕ) : Option ℕ := if b ≤ a then some (a - b) else none

/-- `usize` addition in a debug build: panics on overflow. -/
def addUsize (a b : ℕ) : Option ℕ := if a + b < USIZE_MOD then some (a + b) else none

/-- Rust `assert!`: panics when the condition is false. -/
def rustAssert (c : Prop) [Decidable c] : Option Unit := if c then some () else none

/-- `CollisionMap` (components.rs lines 63-67): a `BitSet` plus `u32` width and
height.  The bitset is the set of bit indices currently set. -/
structure CollisionMap where
  bitset : Finset ℕ
  width : ℕ
  height : ℕ
deriving DecidableEq

/-- `CollisionMap::new` (components.rs lines 71-77).  `BitSet::with_capacity(width * height)`
computes the `u32` product `width * height`, which panics on overflow in a
debug build; the bitset starts empty. -/
def CollisionMap.new (width height : ℕ) : Option CollisionMap := do
  let _cap ← mulU32 width height
  pure ⟨∅, width, height⟩

/-- `CollisionMap::index_of` (components.rs lines 104-108):
`let idx = y * self.width + x; assert!(idx <= self.width * self.height - 1); idx`,
all in `u32` debug arithmetic. -/
def CollisionMap.index_of (m : CollisionMap) (x y : ℕ) : Option ℕ := do
  let yw ← mulU32 y m.width
  let idx ← addU32 yw x
  let cap ← mulU32 m.width m.height
  let bound ← subU32 cap 1
  let _ ← rustAssert (idx ≤ bound)
  pure idx

/-- `CollisionMap::set` (components.rs lines 80-82): `self.bitset.add(self.index_of(x, y))`. -/
def CollisionMap.set (m : CollisionMap) (x y : ℕ) : Option CollisionMap := do
  let idx ← m.index_of x y
  pure ⟨insert idx m.bitset, m.width, m.height⟩

/-- `CollisionMap::unset` (components.rs lines 85-87): `self.bitset.remove(self.index_of(x, y))`. -/
def CollisionMap.unset (m : CollisionMap) (x y : ℕ) : Option CollisionMap := do
  let idx ← m.index_of x y
  pure ⟨m.bitset.erase idx, m.width, m.height⟩

/-- `CollisionMap::is_set` (components.rs lines 90-92): `self.bitset.contains(self.index_of(x, y))`. -/
def CollisionMap.is_set (m : CollisionMap) (x y : ℕ) : Option Bool := do
  let idx ← m.index_of x y
  pure (decide (idx ∈ m.bitset))

/-- `CollisionMap::size` (components.rs lines 95-97). -/
def CollisionMap.size (m : CollisionMap) : ℕ × ℕ := (m.width, m.height)

/-- `CollisionMap::clear` (components.rs lines 100-102): `self.bitset.clear()`. -/
def CollisionMap.clear (m : CollisionMap) : CollisionMap := ⟨∅, m.width, m.height⟩

/-- `CollisionMap::position_of` (components.rs lines 110-114):
asserts `width > 0` and `height > 0`, then returns `(idx % width, idx / width)`. -/
def CollisionMap.position_of (m : CollisionMap) (idx : ℕ) : Option (ℕ × ℕ) := do
  let _ ← rustAssert (0 < m.width)
  let _ ← rustAssert (0 < m.height)
  pure (idx % m.width, idx / m.width)

/-- `BaseMap::is_opaque` (components.rs lines 118-120):
`self.bitset.contains(idx as u32)`; the `usize → u32` cast truncates. -/
def CollisionMap.is_opaque (m : CollisionMap) (idx : ℕ) : Bool :=
  decide (idx % U32_MOD ∈ m.bitset)

/-- `BaseMap::get_available_exits` (components.rs lines 122-155), in `usize`
debug arithmetic.  The first `rustAssert` models the panic of `idx % self.width`
(division by zero) and of `self.width as usize - 1` (debug underflow) when
`width = 0`; the second models the debug underflow of `self.height as usize - 1`
when `height = 0`.  The guarded subtractions `idx - 1` and `idx - self.width`
cannot underflow under their guards and coincide with `ℕ` subtraction. -/
def CollisionMap.get_available_exits (m : CollisionMap) (idx : ℕ) :
    Option (List (ℕ × ℚ)) := do
  let _ ← rustAssert (0 < m.width)
  let right ←
    if idx % m.width < m.width - 1 then do
      let n ← addUsize idx 1
      pure (if CollisionMap.is_opaque m n then [] else [(n, (1 : ℚ))])
    else pure []
  let left :=
    if 0 < idx % m.width then
      if CollisionMap.is_opaque m (idx - 1) then [] else [(idx - 1, (1 : ℚ))]
    else []
  let _ ← rustAssert (0 < m.height)
  let down ←
    if idx / m.width < m.height - 1 then do
      let n ← addUsize idx m.width
      pure (if CollisionMap.is_opaque m n then [] else [(n, (1 : ℚ))])
    else pure []
  let up :=
    if m.width ≤ idx then
      if CollisionMap.is_opaque m (idx - m.width) then [] else [(idx - m.width, (1 : ℚ))]
    else []
  pure (right ++ (left ++ (down ++ up)))

/-- `BaseMap::get_pathing_distance` (components.rs lines 157-161):
`position_of(idx as u32)` truncates each `usize`, then the Euclidean distance
`((x2 - x1)^2 + (y2 - y1)^2).sqrt()` is computed; the floating-point
expression is modelled exactly over `ℝ`. -/
noncomputable def CollisionMap.get_pathing_distance (m : CollisionMap)
    (idx1 idx2 : ℕ) : Option ℝ := do
  let p1 ← m.position_of (idx1 % U32_MOD)
  let p2 ← m.position_of (idx2 % U32_MOD)
  pure (Real.sqrt (((p2.1 : ℝ) - (p1.1 : ℝ)) ^ 2 + ((p2.2 : ℝ) - (p1.2 : ℝ)) ^ 2))

/-! ### Characterization lemmas for `index_of` -/

/-- On a grid with positive dimensions whose `u32` capacity does not overflow,
`index_of` succeeds with the linear index `y * width + x` exactly when that
index is in range, and panics otherwise (by failed assertion or by `u32`
overflow while computing the index). -/
lemma index_of_eq (m : CollisionMap) (x y : ℕ) (hw : 0 < m.width)
    (hh : 0 < m.height) (hcap : m.width * m.height < U32_MOD) :
    m.index_of x y =
      if y * m.width + x < m.width * m.height then some (y * m.width + x)
      else none := by
  have hcap1 : 1 ≤ m.width * m.height := Nat.one_le_iff_ne_zero.mpr
    (Nat.mul_ne_zero (Nat.pos_iff_ne_zero.mp hw) (Nat.pos_iff_ne_zero.mp hh))
  unfold CollisionMap.index_of mulU32 addU32 subU32 rustAssert
  by_cases h1 : y * m.width < U32_MOD
  · by_cases h2 : y * m.width + x < U32_MOD
    · simp only [if_pos h1, if_pos h2, if_pos hcap, if_pos hcap1,
        Option.some_bind]
      by_cases h3 : y * m.width + x < m.width * m.height
      · have h4 : y * m.width + x ≤ m.width * m.height - 1 :=
          Nat.le_sub_one_of_lt h3
        simp [h2, hcap1, h3, h4]
      · have h4 : ¬ (y * m.width + x ≤ m.width * m.height - 1) := by
          intro hle
          exact h3 (lt_of_le_of_lt hle (Nat.sub_lt (lt_of_lt_of_le one_pos hcap1) one_pos))
        simp [h2, hcap1, h4, h3]
    · have h3 : ¬ (y * m.width + x < m.width * m.height) :=
        fun hlt => h2 (lt_trans hlt hcap)
      simp [h1, h2, h3]
  · have h2 : ¬ (y * m.width + x < m.width * m.height) := fun hlt =>
      h1 (lt_of_le_of_lt (Nat.le_add_right _ _) (lt_trans hlt hcap))
    simp [h1, h2]

/-- On a zero-capacity grid (`width * height = 0`), `index_of` always panics:
either the index computation overflows `u32`, or the assertion's
`width * height - 1` underflows in the debug build. -/
lemma index_of_eq_none_of_zero (m : CollisionMap) (x y : ℕ)
    (h0 : m.width * m.height = 0) : m.index_of x y = none := by
  unfold CollisionMap.index_of mulU32 addU32 subU32 rustAssert
  by_cases h1 : y * m.width < U32_MOD
  · by_cases h2 : y * m.width + x < U32_MOD
    · have hpos : 0 < U32_MOD := by norm_num [U32_MOD]
      simp [h1, h2, h0, hpos]
    · simp [h1, h2]
  · simp [h1]

/-! ### Characterization lemma for `get_available_exits` -/

/-- On a grid with positive dimensions, provided the `usize` candidate
arithmetic does not overflow, `get_available_exits` returns the concatenation
of the four guarded direction branches right, left, down, up. -/
lemma get_available_exits_eq (m : CollisionMap) (idx : ℕ) (hw : 0 < m.width)
    (hh : 0 < m.height) (hov : idx + m.width < USIZE_MOD) :
    m.get_available_exits idx = some (
      (if idx % m.width < m.width - 1 then
        (if CollisionMap.is_opaque m (idx + 1) then [] else [(idx + 1, (1 : ℚ))]) else []) ++
      ((if 0 < idx % m.width then
        (if CollisionMap.is_opaque m (idx - 1) then [] else [(idx - 1, (1 : ℚ))]) else []) ++
      ((if idx / m.width < m.height - 1 then
        (if CollisionMap.is_opaque m (idx + m.width) then [] else [(idx + m.width, (1 : ℚ))]) else []) ++
      (if m.width ≤ idx then
        (if CollisionMap.is_opaque m (idx - m.width) then [] else [(idx - m.width, (1 : ℚ))]) else [])))) := by
  have hov1 : idx + 1 < USIZE_MOD := lt_of_le_of_lt (Nat.add_le_add_left hw idx) hov
  unfold CollisionMap.get_available_exits addUsize rustAssert
  by_cases hr : idx % m.width < m.width - 1
  · by_cases hd : idx / m.width < m.height - 1
    · simp [hw, hh, hr, hd, hov, hov1]
    · simp [hw, hh, hr, hd, hov1]
  · by_cases hd : idx / m.width < m.height - 1
    · simp [hw, hh, hr, hd, hov]
    · simp [hw, hh, hr, hd]

/-! ### Derived forms of the accessors -/

/-- An `if`-guarded `some` is `none` exactly when the guard fails. -/
lemma if_some_eq_none_iff {α : Type} (c : Prop) [Decidable c] (v : α) :
    (if c then some v else none) = none ↔ ¬ c := by
  split <;> simp [*]

/-- `set` on a well-formed grid inserts the linear index when it is in range
and panics otherwise. -/
lemma set_eq (m : CollisionMap) (x y : ℕ) (hw : 0 < m.width) (hh : 0 < m.height)
    (hcap : m.width * m.height < U32_MOD) :
    m.set x y =
      if y * m.width + x < m.width * m.height then
        some ⟨insert (y * m.width + x) m.bitset, m.width, m.height⟩
      else none := by
  unfold CollisionMap.set
  rw [index_of_eq m x y hw hh hcap]
  by_cases hlt : y * m.width + x < m.width * m.height <;> simp [hlt]

/-- `unset` on a well-formed grid erases the linear index when it is in range
and panics otherwise. -/
lemma unset_eq (m : CollisionMap) (x y : ℕ) (hw : 0 < m.width) (hh : 0 < m.height)
    (hcap : m.width * m.height < U32_MOD) :
    m.unset x y =
      if y * m.width + x < m.width * m.height then
        some ⟨m.bitset.erase (y * m.width + x), m.width, m.height⟩
      else none := by
  unfold CollisionMap.unset
  rw [index_of_eq m x y hw hh hcap]
  by_cases hlt : y * m.width + x < m.width * m.height <;> simp [hlt]

/-- `is_set` on a well-formed grid tests the bit at the linear index when it is
in range and panics otherwise. -/
lemma is_set_eq (m : CollisionMap) (x y : ℕ) (hw : 0 < m.width) (hh : 0 < m.height)
    (hcap : m.width * m.height < U32_MOD) :
    m.is_set x y =
      if y * m.width + x < m.width * m.height then
        some (decide ((y * m.width + x) ∈ m.bitset))
      else none := by
  unfold CollisionMap.is_set
  rw [index_of_eq m x y hw hh hcap]
  by_cases hlt : y * m.width + x < m.width * m.height <;> simp [hlt]

/-- In-bounds coordinates give an in-range linear index. -/
lemma linear_index_lt (m : CollisionMap) {x y : ℕ} (hx : x < m.width)
    (hy : y < m.height) : y * m.width + x < m.width * m.height := by
  calc y * m.width + x < y * m.width + m.width := Nat.add_lt_add_left hx _
  _ = (y + 1) * m.width := (Nat.succ_mul y m.width).symm
  _ ≤ m.height * m.width := Nat.mul_le_mul_right _ (Nat.succ_le_of_lt hy)
  _ = m.width * m.height := Nat.mul_comm _ _

/-! ### Claims -/

/-- C1 counterexample: on a freshly created 5×5 grid, `set(7, 0)` has `x = 7 ≥
width = 5`, yet the call succeeds (it sets bit `0 * 5 + 7 = 7`) instead of
aborting — refuting the claim that each of `set`/`unset`/`is_set` aborts
whenever `x >= width` or `y >= height`. -/
theorem set_x_ge_width_succeeds :
    CollisionMap.new 5 5 = some ⟨∅, 5, 5⟩ ∧
    (7 ≥ 5 ∧ (CollisionMap.mk ∅ 5 5).set 7 0 = some ⟨{7}, 5, 5⟩) := by
  decide

/-- C1 (amended): for every grid created with `width > 0` and `height > 0`,
each of `set(x,y)`, `unset(x,y)` and `is_set(x,y)` aborts via a fatal
assertion failure exactly when the computed linear index `y*width + x`
exceeds `width*height - 1` (which covers every `y >= height`, but not every
`x >= width`), and succeeds without aborting for every `(x, y)` with
`x < width` and `y < height`. -/
theorem set_unset_is_set_abort_iff_linear (m : CollisionMap) (hw : 0 < m.width)
    (hh : 0 < m.height) (hcap : m.width * m.height < U32_MOD) (x y : ℕ) :
    (m.set x y = none ↔ m.width * m.height ≤ y * m.width + x) ∧
    (m.unset x y = none ↔ m.width * m.height ≤ y * m.width + x) ∧
    (m.is_set x y = none ↔ m.width * m.height ≤ y * m.width + x) ∧
    (x < m.width → y < m.height →
      m.set x y ≠ none ∧ m.unset x y ≠ none ∧ m.is_set x y ≠ none) := by
  refine ⟨?_, ?_, ?_, fun hx hy => ?_⟩
  · rw [set_eq m x y hw hh hcap, if_some_eq_none_iff, Nat.not_lt]
  · rw [unset_eq m x y hw hh hcap, if_some_eq_none_iff, Nat.not_lt]
  · rw [is_set_eq m x y hw hh hcap, if_some_eq_none_iff, Nat.not_lt]
  · have hlt := linear_index_lt m hx hy
    refine ⟨?_, ?_, ?_⟩ <;>
      simp [set_eq m x y hw hh hcap, unset_eq m x y hw hh hcap,
        is_set_eq m x y hw hh hcap, hlt]

/-- C1 witness: the amended claim instantiated on a 5×5 grid at `(x, y) = (2, 3)`. -/
theorem set_unset_is_set_abort_iff_linear_witness :
    ((CollisionMap.mk ∅ 5 5).set 2 3 = none ↔ 5 * 5 ≤ 3 * 5 + 2) ∧
    ((CollisionMap.mk ∅ 5 5).unset 2 3 = none ↔ 5 * 5 ≤ 3 * 5 + 2) ∧
    ((CollisionMap.mk ∅ 5 5).is_set 2 3 = none ↔ 5 * 5 ≤ 3 * 5 + 2) ∧
    (2 < 5 → 3 < 5 → (CollisionMap.mk ∅ 5 5).set 2 3 ≠ none ∧
      (CollisionMap.mk ∅ 5 5).unset 2 3 ≠ none ∧
      (CollisionMap.mk ∅ 5 5).is_set 2 3 ≠ none) :=
  set_unset_is_set_abort_iff_linear (CollisionMap.mk ∅ 5 5) (by decide)
    (by decide) (by decide) 2 3

/-- C2: the bounds check is on the linear index only — whenever
`y*width + x <= width*height - 1`, `set` (likewise `unset` and `is_set`)
passes the assertion and operates on the bit at linear index `y*width + x`
even when `x >= width`; in particular on a 5×5 grid `set(7, 0)` succeeds and
afterwards `is_set(2, 1)` returns `true`. -/
theorem set_checks_linear_index_only :
    (∀ (m : CollisionMap) (x y : ℕ), 0 < m.width → 0 < m.height →
      m.width * m.height < U32_MOD →
      y * m.width + x ≤ m.width * m.height - 1 →
      m.set x y = some ⟨insert (y * m.width + x) m.bitset, m.width, m.height⟩ ∧
      m.unset x y = some ⟨m.bitset.erase (y * m.width + x), m.width, m.height⟩ ∧
      m.is_set x y = some (decide ((y * m.width + x) ∈ m.bitset))) ∧
    ((CollisionMap.mk ∅ 5 5).set 7 0).bind (fun m1 => m1.is_set 2 1) =
      some true := by
  constructor
  · intro m x y hw hh hcap hle
    have hpos : 0 < m.width * m.height := Nat.mul_pos hw hh
    have hlt : y * m.width + x < m.width * m.height :=
      Nat.lt_of_le_of_lt hle (Nat.sub_lt hpos one_pos)
    exact ⟨by simp [set_eq m x y hw hh hcap, hlt],
      by simp [unset_eq m x y hw hh hcap, hlt],
      by simp [is_set_eq m x y hw hh hcap, hlt]⟩
  · decide

/-- C2 witness: the universally quantified part instantiated on a 5×5 grid at
`(x, y) = (7, 0)`, whose linear index `7` is in range although `x ≥ width`. -/
theorem set_checks_linear_index_only_witness :
    (CollisionMap.mk ∅ 5 5).set 7 0 = some ⟨insert 7 ∅, 5, 5⟩ :=
  (set_checks_linear_index_only.1 (CollisionMap.mk ∅ 5 5) 7 0 (by decide)
    (by decide) (by decide) (by decide)).1

/-- C3: for every grid with `width > 0` and `height > 0` and every linear
index `idx < width*height`, `index_of(position_of(idx)) = idx`, and no
assertion in either function fires (the composition returns normally). -/
theorem index_of_position_of_roundtrip (m : CollisionMap) (hw : 0 < m.width)
    (hh : 0 < m.height) (hcap : m.width * m.height < U32_MOD) (idx : ℕ)
    (hidx : idx < m.width * m.height) :
    (m.position_of idx).bind (fun p => m.index_of p.1 p.2) = some idx := by
  unfold CollisionMap.position_of rustAssert
  rw [if_pos hw, if_pos hh]
  show m.index_of (idx % m.width) (idx / m.width) = some idx
  rw [index_of_eq m _ _ hw hh hcap]
  have heq : idx / m.width * m.width + idx % m.width = idx := by
    rw [Nat.mul_comm (idx / m.width) m.width]
    exact Nat.div_add_mod idx m.width
  rw [heq, if_pos hidx]

/-- C3 witness: the round trip on a 3×4 grid at linear index 7. -/
theorem index_of_position_of_roundtrip_witness :
    ((CollisionMap.mk ∅ 3 4).position_of 7).bind
      (fun p => (CollisionMap.mk ∅ 3 4).index_of p.1 p.2) = some 7 :=
  index_of_position_of_roundtrip (CollisionMap.mk ∅ 3 4) (by decide) (by decide)
    (by decide) 7 (by decide)

/-- C4: on every grid created with `width * height = 0`, `set(x, y)` panics
(models abnormal termination) for every coordinate pair, rather than
silently succeeding or clamping. -/
theorem zero_size_grid_set_aborts (w h : ℕ) (m : CollisionMap)
    (hnew : CollisionMap.new w h = some m) (h0 : w * h = 0) (x y : ℕ) :
    m.set x y = none := by
  have hm : m.width * m.height = 0 := by
    unfold CollisionMap.new mulU32 at hnew
    by_cases hc : w * h < U32_MOD
    · simp only [if_pos hc, Option.some_bind] at hnew
      cases hnew
      simpa using h0
    · simp [hc] at hnew
  unfold CollisionMap.set
  rw [index_of_eq_none_of_zero m x y hm]
  rfl

/-- C4 witness: on the grid created by `new(0, 5)`, `set(3, 3)` panics. -/
theorem zero_size_grid_set_aborts_witness :
    (CollisionMap.mk ∅ 0 5).set 3 3 = none :=
  zero_size_grid_set_aborts 0 5 (CollisionMap.mk ∅ 0 5) (by decide) (by decide) 3 3

/-- Merging the two nested guards of a direction branch into one condition. -/
lemma if_nested_eq {α : Type} (A : Prop) [Decidable A] (B : Bool) (L : List α) :
    (if A then (if B then [] else L) else []) = if A ∧ ¬ B then L else [] := by
  by_cases hA : A <;> by_cases hB : B <;> simp [hA, hB]

/-- A valid index plus the width stays below the `usize` limit when the `u32`
capacity does not overflow. -/
lemma idx_add_width_lt (m : CollisionMap) {idx : ℕ} (hh : 0 < m.height)
    (hcap : m.width * m.height < U32_MOD) (hidx : idx < m.width * m.height) :
    idx + m.width < USIZE_MOD := by
  have h1 : idx < U32_MOD := lt_trans hidx hcap
  have h2 : m.width ≤ m.width * m.height := Nat.le_mul_of_pos_right _ hh
  have h3 : m.width < U32_MOD := lt_of_le_of_lt h2 hcap
  calc idx + m.width < U32_MOD + U32_MOD := Nat.add_lt_add h1 h3
  _ ≤ USIZE_MOD := by norm_num [U32_MOD, USIZE_MOD]

/-- Under the down-direction guard, the down candidate is still a valid index. -/
lemma down_candidate_lt (m : CollisionMap) {idx : ℕ} (hw : 0 < m.width)
    (hh : 0 < m.height) (hd : idx / m.width < m.height - 1) :
    idx + m.width < m.width * m.height := by
  have h1 : idx < (m.height - 1) * m.width := (Nat.div_lt_iff_lt_mul hw).mp hd
  have h2 : idx + m.width < (m.height - 1) * m.width + m.width :=
    Nat.add_lt_add_right h1 m.width
  have h3 : (m.height - 1) * m.width + m.width = m.height * m.width := by
    rw [← Nat.succ_mul]
    congr 1
    omega
  rw [h3, Nat.mul_comm] at h2
  exact h2

/-- C5: on every all-unoccupied grid with `width ≥ 3` and `height ≥ 3`,
`get_available_exits` at an interior index returns exactly 4 entries, in the
order right `idx+1`, left `idx-1`, down `idx+width`, up `idx-width`, each with
cost `1.0`; and at the corner `idx = 0` it returns exactly 2 entries, right
and down (no left and no up). -/
theorem exits_interior_four_corner_two (m : CollisionMap) (hb : m.bitset = ∅)
    (hw3 : 3 ≤ m.width) (hh3 : 3 ≤ m.height)
    (hcap : m.width * m.height < U32_MOD) :
    (∀ idx : ℕ, 0 < idx % m.width → idx % m.width < m.width - 1 →
      0 < idx / m.width → idx / m.width < m.height - 1 →
      m.get_available_exits idx =
        some [(idx + 1, (1 : ℚ)), (idx - 1, 1), (idx + m.width, 1),
          (idx - m.width, 1)]) ∧
    m.get_available_exits 0 = some [(1, (1 : ℚ)), (m.width, 1)] := by
  have hw : 0 < m.width := lt_of_lt_of_le (by norm_num) hw3
  have hh : 0 < m.height := lt_of_lt_of_le (by norm_num) hh3
  have hnone : ∀ n : ℕ, CollisionMap.is_opaque m n = false := by
    intro n
    simp [ CollisionMap.is_opaque, hb]
  constructor
  · intro idx hl hr hu hd
    have hidx : idx < m.width * m.height := by
      have h1 : idx / m.width < m.height := lt_of_lt_of_le hd (Nat.sub_le _ _)
      have h2 : idx < m.height * m.width := (Nat.div_lt_iff_lt_mul hw).mp h1
      rwa [Nat.mul_comm] at h2
    have hov := idx_add_width_lt m hh hcap hidx
    have hup : m.width ≤ idx := (Nat.one_le_div_iff hw).mp hu
    rw [get_available_exits_eq m idx hw hh hov]
    simp [hnone, hl, hr, hd, hup]
  · have hov : (0 : ℕ) + m.width < USIZE_MOD :=
      idx_add_width_lt m hh hcap (Nat.mul_pos hw hh)
    rw [get_available_exits_eq m 0 hw hh hov]
    have hr0 : 0 % m.width < m.width - 1 := by
      rw [Nat.zero_mod]
      omega
    have hd0 : 0 / m.width < m.height - 1 := by
      rw [Nat.zero_div]
      omega
    have h1w : 1 < m.width := by omega
    have h1h : 1 < m.height := by omega
    simp [hnone, hr0, hd0, Nat.not_le.mpr hw, h1w, h1h]

/-- C5 witness: on the empty 3×3 grid, the interior index 4 has the 4 exits
`[5, 3, 7, 1]` in order right, left, down, up, and the corner 0 has the 2
exits `[1, 3]` (right and down). -/
theorem exits_interior_four_corner_two_witness :
    (CollisionMap.mk ∅ 3 3).get_available_exits 4 =
      some [(5, (1 : ℚ)), (3, 1), (7, 1), (1, 1)] ∧
    (CollisionMap.mk ∅ 3 3).get_available_exits 0 =
      some [(1, (1 : ℚ)), (3, 1)] :=
  ⟨(exits_interior_four_corner_two (CollisionMap.mk ∅ 3 3) rfl (by decide)
      (by decide) (by decide)).1 4 (by decide) (by decide) (by decide) (by decide),
   (exits_interior_four_corner_two (CollisionMap.mk ∅ 3 3) rfl (by decide)
      (by decide) (by decide)).2⟩

/-- C6: for every grid and every valid index `idx`, each directional candidate
is in the result exactly when its boundary condition holds and the candidate
cell is not blocked (the result is the concatenation of the four so-guarded
direction branches, in order right, left, down, up); and the result does not
depend on whether `idx` itself is blocked — any two bitsets agreeing away from
`idx` give the same exits at `idx`. -/
theorem exits_guarded_by_is_opaque_only :
    (∀ (m : CollisionMap) (idx : ℕ), 0 < m.width → 0 < m.height →
      m.width * m.height < U32_MOD → idx < m.width * m.height →
      m.get_available_exits idx = some (
        (if idx % m.width < m.width - 1 ∧ ¬ CollisionMap.is_opaque m (idx + 1) then
          [(idx + 1, (1 : ℚ))] else []) ++
        ((if 0 < idx % m.width ∧ ¬ CollisionMap.is_opaque m (idx - 1) then
          [(idx - 1, (1 : ℚ))] else []) ++
        ((if idx / m.width < m.height - 1 ∧ ¬ CollisionMap.is_opaque m (idx + m.width) then
          [(idx + m.width, (1 : ℚ))] else []) ++
        (if m.width ≤ idx ∧ ¬ CollisionMap.is_opaque m (idx - m.width) then
          [(idx - m.width, (1 : ℚ))] else []))))) ∧
    (∀ (b₁ b₂ : Finset ℕ) (w h idx : ℕ), 0 < w → 0 < h → w * h < U32_MOD →
      idx < w * h → (∀ j, j ≠ idx → (j ∈ b₁ ↔ j ∈ b₂)) →
      (CollisionMap.mk b₁ w h).get_available_exits idx =
        (CollisionMap.mk b₂ w h).get_available_exits idx) := by
  constructor
  · intro m idx hw hh hcap hidx
    rw [get_available_exits_eq m idx hw hh (idx_add_width_lt m hh hcap hidx),
      if_nested_eq, if_nested_eq, if_nested_eq, if_nested_eq]
  · intro b₁ b₂ w h idx hw hh hcap hidx hagree
    have hov : idx + w < USIZE_MOD := idx_add_width_lt (CollisionMap.mk b₁ w h) hh hcap hidx
    have hop : ∀ n, n < U32_MOD → n ≠ idx →
        CollisionMap.is_opaque (CollisionMap.mk b₁ w h) n = CollisionMap.is_opaque (CollisionMap.mk b₂ w h) n := by
      intro n hn hne
      have hnm : n % U32_MOD = n := Nat.mod_eq_of_lt hn
      simp only [ CollisionMap.is_opaque, hnm]
      exact decide_eq_decide.mpr (hagree n hne)
    rw [get_available_exits_eq (CollisionMap.mk b₁ w h) idx hw hh hov,
      get_available_exits_eq (CollisionMap.mk b₂ w h) idx hw hh hov]
    have hA : (if (idx % w < w - 1) then
        (if CollisionMap.is_opaque (CollisionMap.mk b₁ w h) (idx + 1) then [] else [(idx + 1, (1 : ℚ))])
        else []) = (if (idx % w < w - 1) then
        (if CollisionMap.is_opaque (CollisionMap.mk b₂ w h) (idx + 1) then [] else [(idx + 1, (1 : ℚ))])
        else []) := by
      by_cases hg : idx % w < w - 1
      · rw [if_pos hg, if_pos hg,
          hop (idx + 1) (lt_of_le_of_lt (Nat.succ_le_of_lt hidx) hcap) (Nat.succ_ne_self idx)]
      · rw [if_neg hg, if_neg hg]
    have hB : (if (0 < idx % w) then
        (if CollisionMap.is_opaque (CollisionMap.mk b₁ w h) (idx - 1) then [] else [(idx - 1, (1 : ℚ))])
        else []) = (if (0 < idx % w) then
        (if CollisionMap.is_opaque (CollisionMap.mk b₂ w h) (idx - 1) then [] else [(idx - 1, (1 : ℚ))])
        else []) := by
      by_cases hg : 0 < idx % w
      · have hpos : 0 < idx := Nat.pos_of_ne_zero (by
          intro h0
          rw [h0, Nat.zero_mod] at hg
          exact lt_irrefl 0 hg)
        rw [if_pos hg, if_pos hg,
          hop (idx - 1) (lt_trans (lt_of_le_of_lt (Nat.sub_le idx 1) hidx) hcap)
            (Nat.ne_of_lt (Nat.sub_lt hpos one_pos))]
      · rw [if_neg hg, if_neg hg]
    have hC : (if (idx / w < h - 1) then
        (if CollisionMap.is_opaque (CollisionMap.mk b₁ w h) (idx + w) then [] else [(idx + w, (1 : ℚ))])
        else []) = (if (idx / w < h - 1) then
        (if CollisionMap.is_opaque (CollisionMap.mk b₂ w h) (idx + w) then [] else [(idx + w, (1 : ℚ))])
        else []) := by
      by_cases hg : idx / w < h - 1
      · have hlt : idx + w < U32_MOD :=
          lt_trans (down_candidate_lt (CollisionMap.mk b₁ w h) hw hh hg) hcap
        have hne : idx + w ≠ idx := by
          intro he
          exact Nat.pos_iff_ne_zero.mp hw (Nat.add_left_cancel (by rw [he, Nat.add_zero]))
        rw [if_pos hg, if_pos hg, hop (idx + w) hlt hne]
      · rw [if_neg hg, if_neg hg]
    have hD : (if (w ≤ idx) then
        (if CollisionMap.is_opaque (CollisionMap.mk b₁ w h) (idx - w) then [] else [(idx - w, (1 : ℚ))])
        else []) = (if (w ≤ idx) then
        (if CollisionMap.is_opaque (CollisionMap.mk b₂ w h) (idx - w) then [] else [(idx - w, (1 : ℚ))])
        else []) := by
      by_cases hg : w ≤ idx
      · have hne : idx - w ≠ idx :=
          Nat.ne_of_lt (Nat.sub_lt (lt_of_lt_of_le hw hg) hw)
        rw [if_pos hg, if_pos hg,
          hop (idx - w) (lt_trans (lt_of_le_of_lt (Nat.sub_le idx w) hidx) hcap) hne]
      · rw [if_neg hg, if_neg hg]
    rw [hA, hB, hC, hD]

/-- C6 witness: on a 3×3 grid with cell 5 blocked, the exits of index 4 follow
the guarded characterization (the blocked right neighbor 5 is excluded), and
blocking index 4 itself leaves its own exits unchanged. -/
theorem exits_guarded_by_is_opaque_only_witness :
    (CollisionMap.mk {5} 3 3).get_available_exits 4 =
      some [(3, (1 : ℚ)), (7, 1), (1, 1)] ∧
    (CollisionMap.mk {5} 3 3).get_available_exits 4 =
      (CollisionMap.mk (insert 4 {5}) 3 3).get_available_exits 4 := by
  constructor
  · exact (exits_guarded_by_is_opaque_only.1 (CollisionMap.mk {5} 3 3) 4
      (by decide) (by decide) (by decide) (by decide)).trans (by decide)
  · exact exits_guarded_by_is_opaque_only.2 {5} (insert 4 {5}) 3 3 4
      (by decide) (by decide) (by decide) (by decide)
      (by
        intro j hj
        simp [Finset.mem_insert, hj])

/-- C7: for every grid and every valid `(x, y)`: after `set(x,y)`, `is_set(x,y)`
is `true`; after a subsequent `unset(x,y)`, `is_set(x,y)` is `false`; `set` is
idempotent; and `unset` on an already-unoccupied cell succeeds and leaves the
grid unchanged. -/
theorem set_is_set_unset_roundtrip (m : CollisionMap) (x y : ℕ)
    (hx : x < m.width) (hy : y < m.height)
    (hcap : m.width * m.height < U32_MOD) :
    (∃ m1, m.set x y = some m1 ∧ m1.is_set x y = some true ∧
      m1.set x y = some m1 ∧
      ∃ m2, m1.unset x y = some m2 ∧ m2.is_set x y = some false) ∧
    (m.is_set x y = some false → m.unset x y = some m) := by
  have hw : 0 < m.width := lt_of_le_of_lt (Nat.zero_le x) hx
  have hh : 0 < m.height := lt_of_le_of_lt (Nat.zero_le y) hy
  have hlt := linear_index_lt m hx hy
  constructor
  · refine ⟨⟨insert (y * m.width + x) m.bitset, m.width, m.height⟩, ?_, ?_, ?_,
      ⟨(insert (y * m.width + x) m.bitset).erase (y * m.width + x), m.width,
        m.height⟩, ?_, ?_⟩
    · rw [set_eq m x y hw hh hcap, if_pos hlt]
    · rw [is_set_eq (CollisionMap.mk (insert (y * m.width + x) m.bitset)
        m.width m.height) x y hw hh hcap]
      simp [hlt]
    · rw [set_eq (CollisionMap.mk (insert (y * m.width + x) m.bitset)
        m.width m.height) x y hw hh hcap]
      simp [hlt, Finset.insert_idem]
    · rw [unset_eq (CollisionMap.mk (insert (y * m.width + x) m.bitset)
        m.width m.height) x y hw hh hcap]
      simp [hlt]
    · rw [is_set_eq (CollisionMap.mk ((insert (y * m.width + x) m.bitset).erase
        (y * m.width + x)) m.width m.height) x y hw hh hcap]
      simp [hlt, Finset.not_mem_erase]
  · intro hunocc
    rw [is_set_eq m x y hw hh hcap, if_pos hlt] at hunocc
    have hnotmem : y * m.width + x ∉ m.bitset := by
      intro hmem
      simp [hmem] at hunocc
    rw [unset_eq m x y hw hh hcap, if_pos hlt,
      Finset.erase_eq_of_not_mem hnotmem]

/-- C7 witness: the round trip on a 5×5 grid at `(3, 3)`, mirroring the
crate's own regression test. -/
theorem set_is_set_unset_roundtrip_witness :
    ((∃ m1, (CollisionMap.mk ∅ 5 5).set 3 3 = some m1 ∧
      m1.is_set 3 3 = some true ∧ m1.set 3 3 = some m1 ∧
      ∃ m2, m1.unset 3 3 = some m2 ∧ m2.is_set 3 3 = some false) ∧
    ((CollisionMap.mk ∅ 5 5).is_set 3 3 = some false →
      (CollisionMap.mk ∅ 5 5).unset 3 3 = some (CollisionMap.mk ∅ 5 5))) :=
  set_is_set_unset_roundtrip (CollisionMap.mk ∅ 5 5) 3 3 (by decide) (by decide)
    (by decide)

/-- C8: on a freshly created grid of any width and height, `is_set(x, y)`
returns `false` for every valid `(x, y)` with `x < width` and `y < height`. -/
theorem new_grid_all_unset (w h : ℕ) (m : CollisionMap)
    (hnew : CollisionMap.new w h = some m) (x y : ℕ) (hx : x < w)
    (hy : y < h) : m.is_set x y = some false := by
  have hcap : w * h < U32_MOD ∧ m = ⟨∅, w, h⟩ := by
    unfold CollisionMap.new mulU32 at hnew
    by_cases hc : w * h < U32_MOD
    · simp only [if_pos hc, Option.some_bind] at hnew
      cases hnew
      exact ⟨hc, rfl⟩
    · simp [hc] at hnew
  obtain ⟨hc, hm⟩ := hcap
  subst hm
  have hw : 0 < w := lt_of_le_of_lt (Nat.zero_le x) hx
  have hh : 0 < h := lt_of_le_of_lt (Nat.zero_le y) hy
  rw [is_set_eq _ x y hw hh hc,
    if_pos (linear_index_lt (CollisionMap.mk ∅ w h) hx hy)]
  simp

/-- C8 witness: `new(5, 5)` yields a grid on which `is_set(3, 3)` is `false`. -/
theorem new_grid_all_unset_witness :
    (CollisionMap.mk ∅ 5 5).is_set 3 3 = some false :=
  new_grid_all_unset 5 5 (CollisionMap.mk ∅ 5 5) (by decide) 3 3 (by decide)
    (by decide)

/-- C9: after `clear()`, every valid `(x, y)` satisfies `is_set(x,y) = false`,
regardless of the grid's prior state, and `clear()` leaves `size()` (the
width and height) unchanged. -/
theorem clear_unsets_all_preserves_size (m : CollisionMap) (x y : ℕ)
    (hx : x < m.width) (hy : y < m.height)
    (hcap : m.width * m.height < U32_MOD) :
    m.clear.is_set x y = some false ∧ m.clear.size = m.size := by
  have hw : 0 < m.width := lt_of_le_of_lt (Nat.zero_le x) hx
  have hh : 0 < m.height := lt_of_le_of_lt (Nat.zero_le y) hy
  constructor
  · rw [is_set_eq m.clear x y hw hh hcap]
    simp [CollisionMap.clear, linear_index_lt m hx hy]
  · rfl

/-- C9 witness: clearing a 5×5 grid whose cell of linear index 7 is occupied
makes `is_set(2, 1)` false and keeps the size `(5, 5)`. -/
theorem clear_unsets_all_preserves_size_witness :
    (CollisionMap.mk {7} 5 5).clear.is_set 2 1 = some false ∧
    (CollisionMap.mk {7} 5 5).clear.size = (CollisionMap.mk {7} 5 5).size :=
  clear_unsets_all_preserves_size (CollisionMap.mk {7} 5 5) 2 1 (by decide)
    (by decide) (by decide)

/-- Closed form of `get_pathing_distance` on a grid with positive dimensions:
both truncated indices are converted to coordinates and the Euclidean
distance of the coordinates is returned. -/
lemma get_pathing_distance_eq (m : CollisionMap) (i j : ℕ) (hw : 0 < m.width)
    (hh : 0 < m.height) :
    m.get_pathing_distance i j = some (Real.sqrt
      ((((j % U32_MOD % m.width : ℕ) : ℝ) - ((i % U32_MOD % m.width : ℕ) : ℝ)) ^ 2 +
       (((j % U32_MOD / m.width : ℕ) : ℝ) - ((i % U32_MOD / m.width : ℕ) : ℝ)) ^ 2)) := by
  unfold CollisionMap.get_pathing_distance CollisionMap.position_of rustAssert
  simp only [if_pos hw, if_pos hh]
  rfl

/-- C10: on every grid with positive dimensions and all valid indices `a`, `b`,
the pathing distance estimate satisfies `d(a, a) = 0`, `d(a, b) = d(b, a)`,
and `d(a, b) ≥ 0` (it is the Euclidean distance between the cells' 2D
coordinates under the index-to-coordinate bijection). -/
theorem pathing_distance_zero_symm_nonneg (m : CollisionMap) (a b : ℕ)
    (hw : 0 < m.width) (hh : 0 < m.height) (ha : a < m.width * m.height)
    (hb : b < m.width * m.height) :
    m.get_pathing_distance a a = some 0 ∧
    m.get_pathing_distance a b = m.get_pathing_distance b a ∧
    ∃ r : ℝ, m.get_pathing_distance a b = some r ∧ 0 ≤ r := by
  refine ⟨?_, ?_, ?_⟩
  · rw [get_pathing_distance_eq m a a hw hh]
    norm_num
  · rw [get_pathing_distance_eq m a b hw hh, get_pathing_distance_eq m b a hw hh]
    congr 1
    congr 1
    ring
  · exact ⟨_, get_pathing_distance_eq m a b hw hh, Real.sqrt_nonneg _⟩

/-- C10 witness: the three distance properties on a 5×5 grid at indices 7
and 11. -/
theorem pathing_distance_zero_symm_nonneg_witness :
    (CollisionMap.mk ∅ 5 5).get_pathing_distance 7 7 = some 0 ∧
    (CollisionMap.mk ∅ 5 5).get_pathing_distance 7 11 =
      (CollisionMap.mk ∅ 5 5).get_pathing_distance 11 7 ∧
    ∃ r : ℝ, (CollisionMap.mk ∅ 5 5).get_pathing_distance 7 11 = some r ∧
      0 ≤ r :=
  pathing_distance_zero_symm_nonneg (CollisionMap.mk ∅ 5 5) 7 11 (by decide)
    (by decide) (by decide) (by decide)

end Minigene
